import Mathlib

/-!
Verification of the security-group reconciliation core of the
aws-alb-ingress-controller repository: the permission diff engine
(`diffIPPermissionInfos`), the reconcile pass (`ReconcileIngress` of
`defaultSecurityGroupReconciler`), and `ControllerConfig.Validate`.

Pure functions are embedded as Lean functions; the `SecurityGroupManager`
interface is embedded as a record of call outcomes, and a reconcile pass
returns both its `error` result and the ordered list of mutation calls it
issued. An in-memory fake manager gives state-transition semantics for the
whole-pass invariants.
-/

namespace AlbIngress

/-- A label set attached to a permission (ownership/provenance metadata).
In the source this is `map[string]string` rendered as `labels.Set`. -/
abbrev LabelSet := List (String × String)

/-- Modelled from the spec: the `IPPermissionInfo` struct is not under src/
(only its uses are). Per the spec, a Permission carries protocol, a port
range (absent meaning "all ports"), a peer specification, and a free-form
label set used only for ownership bookkeeping. -/
structure IPPermissionInfo where
  protocol : String
  fromPort : Option Int
  toPort : Option Int
  peer : String
  labels : LabelSet
deriving DecidableEq, Repr

/-- Modelled from the spec: `ec2equality.CompareOptionForIPPermission()`
combined with `cmpopts.IgnoreFields(IPPermissionInfo{}, "Labels")` is not
under src/. Per the spec, equality is structural equality of protocol,
port range and peer, with the Labels field ignored entirely. -/
def permEq (a b : IPPermissionInfo) : Bool :=
  decide (a.protocol = b.protocol ∧ a.fromPort = b.fromPort ∧
    a.toPort = b.toPort ∧ a.peer = b.peer)

/-- diffIPPermissionInfos calculates set_difference as source - target:
each source element is kept exactly when no target element is equal to it
under the equality policy (the Go loop sets `containsInTarget` by scanning
`target` and appends the element to `diffs` when the scan found no match). -/
def diffIPPermissionInfos (source target : List IPPermissionInfo) :
    List IPPermissionInfo :=
  source.filter fun sPermission =>
    !(target.any fun tPermission => permEq sPermission tPermission)

/-- A selector over label sets: the embedding of `labels.Selector` together
with its `Matches(labels.Set)` method. -/
abbrev PermissionSelector := LabelSet → Bool

/-- `labels.Everything()`: the selector matching every label set. -/
def everythingSelector : PermissionSelector := fun _ => true

/-- Configuration options for SecurityGroup Reconcile options. -/
structure SecurityGroupReconcileOptions where
  permissionSelector : PermissionSelector

/-- One functional option (`SecurityGroupReconcileOption`); Go mutates the
options struct, embedded here as a function on it. -/
abbrev SecurityGroupReconcileOption :=
  SecurityGroupReconcileOptions → SecurityGroupReconcileOptions

/-- `ApplyOptions` applies each option in order to the options struct. -/
def applyOptions (opts : SecurityGroupReconcileOptions)
    (options : List SecurityGroupReconcileOption) :
    SecurityGroupReconcileOptions :=
  options.foldl (fun o option => option o) opts

/-- `WithPermissionSelector` sets the permissionSelector. -/
def withPermissionSelector (permissionSelector : PermissionSelector) :
    SecurityGroupReconcileOption :=
  fun opts => { opts with permissionSelector := permissionSelector }

/-- Modelled from the spec: the `SecurityGroupInfo` struct is not under
src/; the reconciler only reads its `Ingress` permission list (the
spec's ResourceState: the full permission set currently attached). -/
structure SecurityGroupInfo where
  ingress : List IPPermissionInfo

/-- One mutation call issued by a reconcile pass, with its argument list. -/
inductive SGCall where
  | revoke : List IPPermissionInfo → SGCall
  | grant : List IPPermissionInfo → SGCall
deriving DecidableEq, Repr

/-- The `SecurityGroupManager` interface as seen by one reconcile pass on
one security-group ID: the outcome of `FetchSGInfosByID` projected at that
ID, and the outcomes of `RevokeSGIngress` / `AuthorizeSGIngress` as
functions of the permission list passed. `Err` is the error type. -/
structure SGManagerBehavior (Err : Type) where
  fetchSGInfo : Except Err SecurityGroupInfo
  revokeSGIngress : List IPPermissionInfo → Except Err Unit
  authorizeSGIngress : List IPPermissionInfo → Except Err Unit

/-- `defaultSecurityGroupReconciler.ReconcileIngress`: apply options to the
default (selector = everything), fetch the security-group info, compute
`extraPermissions = diff(observed, desired)`, filter by the selector into
`permissionsToRevoke`, compute `permissionsToGrant = diff(desired,
observed)`, then revoke (if non-empty) before grant (if non-empty), each
early-returning its error. The second component records the mutation
calls issued, in order, including a failing call. -/
def reconcileIngress {Err : Type} (mgr : SGManagerBehavior Err)
    (desiredPermissions : List IPPermissionInfo)
    (opts : List SecurityGroupReconcileOption) :
    Except Err Unit × List SGCall :=
  let reconcileOpts :=
    applyOptions { permissionSelector := everythingSelector } opts
  match mgr.fetchSGInfo with
  | .error e => (.error e, [])
  | .ok sgInfo =>
    let extraPermissions := diffIPPermissionInfos sgInfo.ingress desiredPermissions
    let permissionsToRevoke := extraPermissions.filter fun permission =>
      reconcileOpts.permissionSelector permission.labels
    let permissionsToGrant := diffIPPermissionInfos desiredPermissions sgInfo.ingress
    if 0 < permissionsToRevoke.length then
      match mgr.revokeSGIngress permissionsToRevoke with
      | .error e => (.error e, [SGCall.revoke permissionsToRevoke])
      | .ok _ =>
        if 0 < permissionsToGrant.length then
          match mgr.authorizeSGIngress permissionsToGrant with
          | .error e => (.error e,
              [SGCall.revoke permissionsToRevoke, SGCall.grant permissionsToGrant])
          | .ok _ => (.ok (),
              [SGCall.revoke permissionsToRevoke, SGCall.grant permissionsToGrant])
        else (.ok (), [SGCall.revoke permissionsToRevoke])
    else
      if 0 < permissionsToGrant.length then
        match mgr.authorizeSGIngress permissionsToGrant with
        | .error e => (.error e, [SGCall.grant permissionsToGrant])
        | .ok _ => (.ok (), [SGCall.grant permissionsToGrant])
      else (.ok (), [])

/-- The fake in-memory manager whose observed state is `state` and whose
mutation calls always succeed (no external interference). -/
def fakeSGManager (state : List IPPermissionInfo) : SGManagerBehavior Empty :=
  { fetchSGInfo := .ok ⟨state⟩
    revokeSGIngress := fun _ => .ok ()
    authorizeSGIngress := fun _ => .ok () }

/-- State transition of the fake manager: `RevokeSGIngress` removes exactly
the listed permissions, `AuthorizeSGIngress` appends the listed ones. -/
def applySGCall (state : List IPPermissionInfo) : SGCall → List IPPermissionInfo
  | .revoke ps => state.filter fun o => decide (o ∉ ps)
  | .grant ps => state ++ ps

/-- One reconcile pass against the fake manager: returns the resulting
observed state and the ordered mutation calls the pass issued. -/
def runPass (state desired : List IPPermissionInfo)
    (opts : List SecurityGroupReconcileOption) :
    List IPPermissionInfo × List SGCall :=
  let calls := (reconcileIngress (fakeSGManager state) desired opts).2
  (calls.foldl applySGCall state, calls)

/-- The selector in effect for a pass: functional options applied to the
default options (selector = everything), then projected. -/
def appliedSelector (opts : List SecurityGroupReconcileOption) :
    PermissionSelector :=
  (applyOptions { permissionSelector := everythingSelector } opts).permissionSelector

/-- The revoke set a pass computes: `extraPermissions = diff(observed,
desired)` filtered by the selector. -/
def computedRevoke (observed desired : List IPPermissionInfo)
    (sel : PermissionSelector) : List IPPermissionInfo :=
  (diffIPPermissionInfos observed desired).filter fun permission =>
    sel permission.labels

/-- A manager whose fetch fails with the string error "boom". -/
def failingFetchManager : SGManagerBehavior String :=
  { fetchSGInfo := .error "boom"
    revokeSGIngress := fun _ => .ok ()
    authorizeSGIngress := fun _ => .ok () }

/-- The open-to-world https rule, labelled as controller-owned. -/
def permOwned : IPPermissionInfo :=
  { protocol := "tcp", fromPort := some 443, toPort := some 443
    peer := "0.0.0.0/0", labels := [("owned", "true")] }

/-- An unlabelled https rule restricted to a private range. -/
def permUnowned : IPPermissionInfo :=
  { protocol := "tcp", fromPort := some 443, toPort := some 443
    peer := "10.0.0.0/8", labels := [] }

/-- The selector matching only label sets carrying `owned=true`. -/
def ownedSelector : PermissionSelector :=
  fun ls => decide (("owned", "true") ∈ ls)

/-- A manager observing `[permOwned]` whose revoke call always fails. -/
def failingRevokeManager : SGManagerBehavior String :=
  { fetchSGInfo := .ok ⟨[permOwned]⟩
    revokeSGIngress := fun _ => .error "revoke failed"
    authorizeSGIngress := fun _ => .ok () }

/-! ### ControllerConfig -/

/-- `RuntimeConfig`: only the `Scheme` pointer matters to `Validate`;
`scheme = none` embeds a nil `*runtime.Scheme`. The remaining fields read
elsewhere in the file are carried as data. -/
structure RuntimeConfig where
  scheme : Option Unit
  apiServer : String
  kubeConfig : String

/-- `ControllerConfig` with the fields declared in the source; the
`IngressConfig` and `AddonsConfig` sub-structs are not under src/ and are
carried as unexamined data. -/
structure ControllerConfig where
  logLevel : String
  clusterName : String
  ingressConfig : List (String × String)
  addonsConfig : List (String × String)
  runtimeConfig : RuntimeConfig
  serviceMaxConcurrentReconciles : Int
  targetgroupBindingMaxConcurrentReconciles : Int

/-- `ControllerConfig.Validate`: error when the cluster name is empty, then
error when the runtime scheme is nil, else success (`none` embeds a nil
`error` return). -/
def ControllerConfig.Validate (cfg : ControllerConfig) : Option String :=
  if cfg.clusterName.length = 0 then
    some "Kubernetes cluster name must be specified"
  else if cfg.runtimeConfig.scheme.isNone then
    some "Controller runtime scheme not initialzied"
  else
    none

/-- `permOwned` with its ownership labels stripped, for the C6 witness. -/
def permOwnedRelabeled : IPPermissionInfo :=
  { permOwned with labels := [] }

/-- A config passing validation, for the C9 witness. -/
def cfgGood : ControllerConfig :=
  { logLevel := "info"
    clusterName := "cluster-a"
    ingressConfig := []
    addonsConfig := []
    runtimeConfig := { scheme := some (), apiServer := "", kubeConfig := "" }
    serviceMaxConcurrentReconciles := 3
    targetgroupBindingMaxConcurrentReconciles := 3 }

/-- A config with an empty cluster name, for the C9 witness. -/
def cfgNoName : ControllerConfig :=
  { cfgGood with clusterName := "" }

/-! ### Basic properties of the equality policy and the diff engine -/

theorem permEq_iff (a b : IPPermissionInfo) :
    permEq a b = true ↔
      a.protocol = b.protocol ∧ a.fromPort = b.fromPort ∧
      a.toPort = b.toPort ∧ a.peer = b.peer := by
  simp [permEq]

theorem permEq_refl (a : IPPermissionInfo) : permEq a a = true := by
  simp [permEq]

theorem permEq_symm {a b : IPPermissionInfo} (h : permEq a b = true) :
    permEq b a = true := by
  rw [permEq_iff] at h ⊢
  obtain ⟨h1, h2, h3, h4⟩ := h
  exact ⟨h1.symm, h2.symm, h3.symm, h4.symm⟩

theorem permEq_trans {a b c : IPPermissionInfo} (hab : permEq a b = true)
    (hbc : permEq b c = true) : permEq a c = true := by
  rw [permEq_iff] at hab hbc ⊢
  obtain ⟨h1, h2, h3, h4⟩ := hab
  obtain ⟨g1, g2, g3, g4⟩ := hbc
  exact ⟨h1.trans g1, h2.trans g2, h3.trans g3, h4.trans g4⟩

theorem mem_diffIPPermissionInfos {p : IPPermissionInfo}
    {source target : List IPPermissionInfo} :
    p ∈ diffIPPermissionInfos source target ↔
      p ∈ source ∧ ∀ q ∈ target, permEq p q = false := by
  simp [diffIPPermissionInfos, List.mem_filter]

theorem diffIPPermissionInfos_eq_nil
    {source target : List IPPermissionInfo}
    (h : ∀ p ∈ source, ∃ q ∈ target, permEq p q = true) :
    diffIPPermissionInfos source target = [] := by
  rw [diffIPPermissionInfos, List.filter_eq_nil_iff]
  intro a ha
  obtain ⟨q, hq, hpq⟩ := h a ha
  simp only [Bool.not_eq_true', Bool.not_eq_false, List.any_eq_true]
  exact ⟨q, hq, hpq⟩

theorem string_length_eq_zero_iff (s : String) : s.length = 0 ↔ s = "" := by
  constructor
  · intro h
    exact String.ext (List.length_eq_zero.mp h)
  · intro h
    subst h
    rfl

theorem reconcileIngress_ok {Err : Type} (mgr : SGManagerBehavior Err)
    (desired : List IPPermissionInfo)
    (opts : List SecurityGroupReconcileOption) (sgInfo : SecurityGroupInfo)
    (h : mgr.fetchSGInfo = .ok sgInfo) :
    reconcileIngress mgr desired opts =
      (if 0 < (computedRevoke sgInfo.ingress desired (appliedSelector opts)).length then
        match mgr.revokeSGIngress
            (computedRevoke sgInfo.ingress desired (appliedSelector opts)) with
        | .error e => (.error e,
            [SGCall.revoke (computedRevoke sgInfo.ingress desired (appliedSelector opts))])
        | .ok _ =>
          if 0 < (diffIPPermissionInfos desired sgInfo.ingress).length then
            match mgr.authorizeSGIngress (diffIPPermissionInfos desired sgInfo.ingress) with
            | .error e => (.error e,
                [SGCall.revoke (computedRevoke sgInfo.ingress desired (appliedSelector opts)),
                 SGCall.grant (diffIPPermissionInfos desired sgInfo.ingress)])
            | .ok _ => (.ok (),
                [SGCall.revoke (computedRevoke sgInfo.ingress desired (appliedSelector opts)),
                 SGCall.grant (diffIPPermissionInfos desired sgInfo.ingress)])
          else (.ok (),
            [SGCall.revoke (computedRevoke sgInfo.ingress desired (appliedSelector opts))])
      else
        if 0 < (diffIPPermissionInfos desired sgInfo.ingress).length then
          match mgr.authorizeSGIngress (diffIPPermissionInfos desired sgInfo.ingress) with
          | .error e => (.error e,
              [SGCall.grant (diffIPPermissionInfos desired sgInfo.ingress)])
          | .ok _ => (.ok (),
              [SGCall.grant (diffIPPermissionInfos desired sgInfo.ingress)])
        else (.ok (), [])) := by
  rw [reconcileIngress, h]
  rfl

/-! ### Claim theorems -/

/-- C1: `Diff(source, target)` returns exactly those elements of `source`
for which no element of `target` is equal under the EqualityPolicy
(structural equality of protocol, port range and peer, Labels ignored): the
result is a sublist of `source`, and an element of `source` is in the
result if and only if it has no equal element in `target`. -/
theorem diff_spec :
    ∀ (source target : List IPPermissionInfo),
      (diffIPPermissionInfos source target).Sublist source ∧
      ∀ p : IPPermissionInfo,
        p ∈ diffIPPermissionInfos source target ↔
          p ∈ source ∧ ∀ q ∈ target,
            ¬(q.protocol = p.protocol ∧ q.fromPort = p.fromPort ∧
              q.toPort = p.toPort ∧ q.peer = p.peer) := by
  intro source target
  refine ⟨List.filter_sublist _, fun p => ?_⟩
  rw [mem_diffIPPermissionInfos]
  constructor
  · rintro ⟨hp, hq⟩
    refine ⟨hp, fun q hqmem hcontra => ?_⟩
    have := hq q hqmem
    rw [← Bool.not_eq_true, permEq_iff] at this
    obtain ⟨h1, h2, h3, h4⟩ := hcontra
    exact this ⟨h1.symm, h2.symm, h3.symm, h4.symm⟩
  · rintro ⟨hp, hq⟩
    refine ⟨hp, fun q hqmem => ?_⟩
    rw [← Bool.not_eq_true, permEq_iff]
    rintro ⟨h1, h2, h3, h4⟩
    exact hq q hqmem ⟨h1.symm, h2.symm, h3.symm, h4.symm⟩

/-- C5: when the fetch of observed state fails, `ReconcileIngress` returns
that error unmodified and issues no revoke or grant call in that pass. -/
theorem reconcile_fetch_failure {Err : Type} (mgr : SGManagerBehavior Err)
    (desired : List IPPermissionInfo)
    (opts : List SecurityGroupReconcileOption) (e : Err)
    (h : mgr.fetchSGInfo = .error e) :
    reconcileIngress mgr desired opts = (.error e, []) := by
  simp [reconcileIngress, h]

/-- Witness for C5 at a concrete failing manager. -/
theorem reconcile_fetch_failure_witness :
    reconcileIngress failingFetchManager [] [] = (.error "boom", []) :=
  reconcile_fetch_failure failingFetchManager [] [] "boom" rfl

/-- C7: two permissions that differ only in their Labels field are equal
under the policy; diffing a list against a relabelled copy (either way
round) yields the empty result; and a reconcile pass whose observed state
is a relabelled copy of the desired state issues zero mutation calls. -/
theorem label_irrelevance :
    (∀ (p : IPPermissionInfo) (l : LabelSet),
      permEq p { p with labels := l } = true) ∧
    (∀ (src : List IPPermissionInfo) (relabel : IPPermissionInfo → LabelSet),
      diffIPPermissionInfos src
        (src.map fun p => { p with labels := relabel p }) = [] ∧
      diffIPPermissionInfos
        (src.map fun p => { p with labels := relabel p }) src = []) ∧
    (∀ (src : List IPPermissionInfo) (relabel : IPPermissionInfo → LabelSet)
      (opts : List SecurityGroupReconcileOption),
      reconcileIngress
        (fakeSGManager (src.map fun p => { p with labels := relabel p }))
        src opts = (.ok (), [])) := by
  have hrefl : ∀ (p : IPPermissionInfo) (l : LabelSet),
      permEq p { p with labels := l } = true := by
    intro p l
    rw [permEq_iff]
    exact ⟨rfl, rfl, rfl, rfl⟩
  have hdiff : ∀ (src : List IPPermissionInfo)
      (relabel : IPPermissionInfo → LabelSet),
      diffIPPermissionInfos src
        (src.map fun p => { p with labels := relabel p }) = [] ∧
      diffIPPermissionInfos
        (src.map fun p => { p with labels := relabel p }) src = [] := by
    intro src relabel
    constructor
    · apply diffIPPermissionInfos_eq_nil
      intro p hp
      exact ⟨{ p with labels := relabel p }, List.mem_map_of_mem _ hp, hrefl p _⟩
    · apply diffIPPermissionInfos_eq_nil
      intro p hp
      obtain ⟨q, hq, hqp⟩ := List.mem_map.mp hp
      subst hqp
      exact ⟨q, hq, permEq_symm (hrefl q _)⟩
  refine ⟨hrefl, hdiff, fun src relabel opts => ?_⟩
  obtain ⟨h1, h2⟩ := hdiff src relabel
  simp [reconcileIngress, fakeSGManager, h1, h2]

/-- C9: `ControllerConfig.Validate` succeeds if and only if the cluster
name is non-empty and the runtime scheme is non-nil; it errors for an empty
cluster name and for a nil scheme; and its result depends on no field other
than the cluster name and the runtime scheme. -/
theorem validate_spec :
    (∀ cfg : ControllerConfig,
      cfg.Validate = none ↔
        cfg.clusterName ≠ "" ∧ cfg.runtimeConfig.scheme.isSome = true) ∧
    (∀ cfg : ControllerConfig, cfg.clusterName = "" →
      ∃ msg, cfg.Validate = some msg) ∧
    (∀ cfg : ControllerConfig, cfg.runtimeConfig.scheme = none →
      ∃ msg, cfg.Validate = some msg) ∧
    (∀ c₁ c₂ : ControllerConfig, c₁.clusterName = c₂.clusterName →
      c₁.runtimeConfig.scheme = c₂.runtimeConfig.scheme →
      c₁.Validate = c₂.Validate) := by
  refine ⟨fun cfg => ?_, fun cfg h => ?_, fun cfg h => ?_, fun c₁ c₂ h1 h2 => ?_⟩
  · rw [ControllerConfig.Validate]
    constructor
    · intro h
      by_cases hname : cfg.clusterName.length = 0
      · simp [hname] at h
      · rw [if_neg hname] at h
        by_cases hscheme : cfg.runtimeConfig.scheme.isNone
        · simp [hscheme] at h
        · refine ⟨fun hempty => hname ?_, ?_⟩
          · rw [hempty]; rfl
          · simpa [Option.isNone_iff_eq_none, Option.isSome_iff_ne_none] using hscheme
    · rintro ⟨hname, hscheme⟩
      rw [if_neg, if_neg]
      · simp [Option.isNone_iff_eq_none, ← Option.isSome_iff_ne_none, hscheme]
      · intro hlen
        exact hname ((string_length_eq_zero_iff _).mp hlen)
  · have hlen : cfg.clusterName.length = 0 := by rw [h]; rfl
    rw [ControllerConfig.Validate, if_pos hlen]
    exact ⟨_, rfl⟩
  · rw [ControllerConfig.Validate]
    by_cases hname : cfg.clusterName.length = 0
    · rw [if_pos hname]; exact ⟨_, rfl⟩
    · rw [if_neg hname, if_pos]
      · exact ⟨_, rfl⟩
      · rw [h]; rfl
  · rw [ControllerConfig.Validate, ControllerConfig.Validate, h1, h2]

/-- Witness for C9: the theorem applied at concrete configurations. -/
theorem validate_spec_witness :
    (cfgGood.Validate = none ↔
      cfgGood.clusterName ≠ "" ∧ cfgGood.runtimeConfig.scheme.isSome = true) ∧
    (∃ msg, cfgNoName.Validate = some msg) ∧
    cfgGood.Validate = cfgGood.Validate :=
  ⟨validate_spec.1 cfgGood, validate_spec.2.1 cfgNoName rfl,
    validate_spec.2.2.2 cfgGood cfgGood rfl rfl⟩

/-- C2: in every pass where both the revoke set and the grant set are
non-empty, the revoke call is issued before the grant call (the trace is
`[revoke, grant]` whatever the grant outcome); and whenever the revoke call
returns an error, the pass returns that error and no grant call is made. -/
theorem revoke_before_grant {Err : Type} (mgr : SGManagerBehavior Err)
    (desired : List IPPermissionInfo)
    (opts : List SecurityGroupReconcileOption) (sgInfo : SecurityGroupInfo)
    (h : mgr.fetchSGInfo = .ok sgInfo) :
    (0 < (computedRevoke sgInfo.ingress desired (appliedSelector opts)).length →
     0 < (diffIPPermissionInfos desired sgInfo.ingress).length →
     mgr.revokeSGIngress
       (computedRevoke sgInfo.ingress desired (appliedSelector opts)) = .ok () →
     (reconcileIngress mgr desired opts).2 =
       [SGCall.revoke (computedRevoke sgInfo.ingress desired (appliedSelector opts)),
        SGCall.grant (diffIPPermissionInfos desired sgInfo.ingress)]) ∧
    (∀ e : Err,
     0 < (computedRevoke sgInfo.ingress desired (appliedSelector opts)).length →
     mgr.revokeSGIngress
       (computedRevoke sgInfo.ingress desired (appliedSelector opts)) = .error e →
     reconcileIngress mgr desired opts =
       (.error e,
        [SGCall.revoke (computedRevoke sgInfo.ingress desired (appliedSelector opts))])) := by
  rw [reconcileIngress_ok mgr desired opts sgInfo h]
  constructor
  · intro hR hG hok
    rw [if_pos hR, hok]
    rw [if_pos hG]
    cases hA : mgr.authorizeSGIngress (diffIPPermissionInfos desired sgInfo.ingress) <;>
      simp
  · intro e hR herr
    rw [if_pos hR, herr]

/-- Witness for C2 at a concrete manager whose revoke call fails. -/
theorem revoke_before_grant_witness :
    reconcileIngress failingRevokeManager [permUnowned] [] =
      (.error "revoke failed", [SGCall.revoke [permOwned]]) := by
  have h := (revoke_before_grant failingRevokeManager [permUnowned] []
    ⟨[permOwned]⟩ rfl).2 "revoke failed" (by decide) rfl
  exact h

/-- C6: when the computed revoke set and the computed grant set are both
empty — in particular whenever observed state already equals desired state
under the EqualityPolicy — the pass succeeds with zero mutation calls. -/
theorem noop_minimality {Err : Type} (mgr : SGManagerBehavior Err)
    (desired : List IPPermissionInfo)
    (opts : List SecurityGroupReconcileOption) (sgInfo : SecurityGroupInfo)
    (h : mgr.fetchSGInfo = .ok sgInfo) :
    (computedRevoke sgInfo.ingress desired (appliedSelector opts) = [] →
     diffIPPermissionInfos desired sgInfo.ingress = [] →
     reconcileIngress mgr desired opts = (.ok (), [])) ∧
    ((∀ p ∈ sgInfo.ingress, ∃ q ∈ desired, permEq p q = true) →
     (∀ q ∈ desired, ∃ p ∈ sgInfo.ingress, permEq q p = true) →
     reconcileIngress mgr desired opts = (.ok (), [])) := by
  have base : computedRevoke sgInfo.ingress desired (appliedSelector opts) = [] →
      diffIPPermissionInfos desired sgInfo.ingress = [] →
      reconcileIngress mgr desired opts = (.ok (), []) := by
    intro hR hG
    rw [reconcileIngress_ok mgr desired opts sgInfo h, hR, hG]
    rfl
  refine ⟨base, fun h1 h2 => base ?_ ?_⟩
  · rw [computedRevoke, diffIPPermissionInfos_eq_nil h1]
    rfl
  · exact diffIPPermissionInfos_eq_nil h2

/-- Witness for C6: observed `[permOwned]`, desired a relabelled copy. -/
theorem noop_minimality_witness :
    reconcileIngress (fakeSGManager [permOwned]) [permOwnedRelabeled] [] =
      (.ok (), []) :=
  (noop_minimality (fakeSGManager [permOwned]) [permOwnedRelabeled] []
    ⟨[permOwned]⟩ rfl).2 (by decide) (by decide)

/-- C3: the revoke set of a pass contains exactly the observed permissions
that have no policy-equal element in the desired set and whose labels match
the selector; any revoke call a pass issues carries exactly that set; and
in the concrete scenario observed = {A(owned), B(unowned)}, desired = {},
selector matching only owned entries, the pass revokes A and leaves B. -/
theorem selector_containment :
    (∀ (observed desired : List IPPermissionInfo) (sel : PermissionSelector)
      (p : IPPermissionInfo),
      p ∈ computedRevoke observed desired sel ↔
        p ∈ observed ∧ (∀ q ∈ desired, permEq p q = false) ∧
          sel p.labels = true) ∧
    (∀ (Err : Type) (mgr : SGManagerBehavior Err)
      (desired : List IPPermissionInfo)
      (opts : List SecurityGroupReconcileOption) (sgInfo : SecurityGroupInfo),
      mgr.fetchSGInfo = .ok sgInfo →
      ∀ ps, SGCall.revoke ps ∈ (reconcileIngress mgr desired opts).2 →
        ps = computedRevoke sgInfo.ingress desired (appliedSelector opts)) ∧
    (runPass [permOwned, permUnowned] [] [withPermissionSelector ownedSelector] =
      ([permUnowned], [SGCall.revoke [permOwned]])) := by
  refine ⟨?_, ?_, by decide⟩
  · intro observed desired sel p
    rw [computedRevoke, List.mem_filter, mem_diffIPPermissionInfos, and_assoc]
  · intro Err mgr desired opts sgInfo h ps hmem
    rw [reconcileIngress_ok mgr desired opts sgInfo h] at hmem
    by_cases hR :
        0 < (computedRevoke sgInfo.ingress desired (appliedSelector opts)).length
    · rw [if_pos hR] at hmem
      cases hrev : mgr.revokeSGIngress
          (computedRevoke sgInfo.ingress desired (appliedSelector opts)) with
      | error e =>
        rw [hrev] at hmem
        simp only [List.mem_singleton] at hmem
        exact (SGCall.revoke.injEq _ _).mp hmem.symm |>.symm
      | ok u =>
        rw [hrev] at hmem
        by_cases hG : 0 < (diffIPPermissionInfos desired sgInfo.ingress).length
        · rw [if_pos hG] at hmem
          cases hA : mgr.authorizeSGIngress
              (diffIPPermissionInfos desired sgInfo.ingress) with
          | error e =>
            rw [hA] at hmem
            simp only [List.mem_cons, List.mem_singleton] at hmem
            rcases hmem with hmem | hmem
            · exact (SGCall.revoke.injEq _ _).mp hmem.symm |>.symm
            · exact absurd hmem (by simp)
          | ok v =>
            rw [hA] at hmem
            simp only [List.mem_cons, List.mem_singleton] at hmem
            rcases hmem with hmem | hmem
            · exact (SGCall.revoke.injEq _ _).mp hmem.symm |>.symm
            · exact absurd hmem (by simp)
        · rw [if_neg hG] at hmem
          simp only [List.mem_singleton] at hmem
          exact (SGCall.revoke.injEq _ _).mp hmem.symm |>.symm
    · rw [if_neg hR] at hmem
      by_cases hG : 0 < (diffIPPermissionInfos desired sgInfo.ingress).length
      · rw [if_pos hG] at hmem
        cases hA : mgr.authorizeSGIngress
            (diffIPPermissionInfos desired sgInfo.ingress) with
        | error e =>
          rw [hA] at hmem
          simp only [List.mem_singleton] at hmem
          exact absurd hmem (by simp)
        | ok v =>
          rw [hA] at hmem
          simp only [List.mem_singleton] at hmem
          exact absurd hmem (by simp)
      · rw [if_neg hG] at hmem
        exact absurd hmem (by simp)

theorem fake_reconcile (state desired : List IPPermissionInfo)
    (opts : List SecurityGroupReconcileOption) :
    reconcileIngress (fakeSGManager state) desired opts =
      (.ok (),
       (if 0 < (computedRevoke state desired (appliedSelector opts)).length
         then [SGCall.revoke (computedRevoke state desired (appliedSelector opts))]
         else []) ++
       (if 0 < (diffIPPermissionInfos desired state).length
         then [SGCall.grant (diffIPPermissionInfos desired state)]
         else [])) := by
  rw [reconcileIngress_ok (fakeSGManager state) desired opts ⟨state⟩ rfl]
  by_cases hR : 0 < (computedRevoke state desired (appliedSelector opts)).length <;>
    by_cases hG : 0 < (diffIPPermissionInfos desired state).length <;>
    simp [hR, hG, fakeSGManager]

theorem runPass_state_mem (state desired : List IPPermissionInfo)
    (opts : List SecurityGroupReconcileOption) (p : IPPermissionInfo) :
    p ∈ (runPass state desired opts).1 ↔
      (p ∈ state ∧ p ∉ computedRevoke state desired (appliedSelector opts)) ∨
      p ∈ diffIPPermissionInfos desired state := by
  simp only [runPass, fake_reconcile]
  by_cases hR : 0 < (computedRevoke state desired (appliedSelector opts)).length <;>
    by_cases hG : 0 < (diffIPPermissionInfos desired state).length
  · rw [if_pos hR, if_pos hG]
    simp [applySGCall, List.mem_filter]
  · rw [if_pos hR, if_neg hG]
    have hGnil : diffIPPermissionInfos desired state = [] :=
      List.length_eq_zero.mp (by omega)
    rw [hGnil]
    simp [applySGCall, List.mem_filter]
  · rw [if_neg hR, if_pos hG]
    have hRnil : computedRevoke state desired (appliedSelector opts) = [] :=
      List.length_eq_zero.mp (by omega)
    rw [hRnil]
    simp [applySGCall]
  · rw [if_neg hR, if_neg hG]
    have hRnil : computedRevoke state desired (appliedSelector opts) = [] :=
      List.length_eq_zero.mp (by omega)
    have hGnil : diffIPPermissionInfos desired state = [] :=
      List.length_eq_zero.mp (by omega)
    rw [hRnil, hGnil]
    simp [applySGCall]

theorem second_revoke_nil (state desired : List IPPermissionInfo)
    (opts : List SecurityGroupReconcileOption) :
    computedRevoke (runPass state desired opts).1 desired
      (appliedSelector opts) = [] := by
  rw [List.eq_nil_iff_forall_not_mem]
  intro p hp
  rw [computedRevoke, List.mem_filter, mem_diffIPPermissionInfos] at hp
  obtain ⟨⟨hp1, hpnomatch⟩, hpsel⟩ := hp
  rw [runPass_state_mem] at hp1
  rcases hp1 with ⟨hpstate, hpnotrev⟩ | hpgrant
  · apply hpnotrev
    rw [computedRevoke, List.mem_filter, mem_diffIPPermissionInfos]
    exact ⟨⟨hpstate, hpnomatch⟩, hpsel⟩
  · have hpd := (mem_diffIPPermissionInfos.mp hpgrant).1
    have hfalse := hpnomatch p hpd
    simp [permEq_refl p] at hfalse

theorem second_grant_nil (state desired : List IPPermissionInfo)
    (opts : List SecurityGroupReconcileOption) :
    diffIPPermissionInfos desired (runPass state desired opts).1 = [] := by
  apply diffIPPermissionInfos_eq_nil
  intro d hd
  by_cases hmatch : ∃ o ∈ state, permEq d o = true
  · obtain ⟨o, ho, hdo⟩ := hmatch
    refine ⟨o, ?_, hdo⟩
    rw [runPass_state_mem]
    left
    refine ⟨ho, fun hrev => ?_⟩
    rw [computedRevoke, List.mem_filter, mem_diffIPPermissionInfos] at hrev
    have hfalse := hrev.1.2 d hd
    simp [permEq_symm hdo] at hfalse
  · push_neg at hmatch
    refine ⟨d, ?_, permEq_refl d⟩
    rw [runPass_state_mem]
    right
    rw [mem_diffIPPermissionInfos]
    exact ⟨hd, fun q hq => by simpa using hmatch q hq⟩

/-- Witness for C3: the owned entry is the revoke set in the concrete
scenario, obtained by applying the theorem to the fake manager. -/
theorem selector_containment_witness :
    [permOwned] = computedRevoke [permOwned, permUnowned] []
      (appliedSelector [withPermissionSelector ownedSelector]) :=
  selector_containment.2.1 Empty
    (fakeSGManager [permOwned, permUnowned]) []
    [withPermissionSelector ownedSelector] ⟨[permOwned, permUnowned]⟩ rfl
    [permOwned] (by decide)

/-- C8: against a manager whose state changes only through the pass's own
revoke and grant calls, running `ReconcileIngress` twice with the same
desired state and options issues zero mutation calls on the second run. -/
theorem reconcile_idempotent (state desired : List IPPermissionInfo)
    (opts : List SecurityGroupReconcileOption) :
    (runPass (runPass state desired opts).1 desired opts).2 = [] := by
  have hR := second_revoke_nil state desired opts
  have hG := second_grant_nil state desired opts
  have h2 : (runPass (runPass state desired opts).1 desired opts).2 =
      (reconcileIngress (fakeSGManager (runPass state desired opts).1)
        desired opts).2 := rfl
  rw [h2, fake_reconcile, hR, hG]
  rfl

/-- C4: after a successful pass against the fake manager, a permission is
policy-represented in the final state exactly when it is policy-equal to a
desired permission or to an out-of-scope observed permission; out-of-scope
observed entries survive unchanged; and every grant call carries exactly
`Diff(desired, observed)` unfiltered by the selector. -/
theorem reconcile_invariant (state desired : List IPPermissionInfo)
    (opts : List SecurityGroupReconcileOption) :
    (∀ p : IPPermissionInfo,
      (∃ f ∈ (runPass state desired opts).1, permEq p f = true) ↔
        ((∃ d ∈ desired, permEq p d = true) ∨
         (∃ o ∈ state, appliedSelector opts o.labels = false ∧
           permEq p o = true))) ∧
    (∀ o ∈ state, appliedSelector opts o.labels = false →
      o ∈ (runPass state desired opts).1) ∧
    (∀ ps, SGCall.grant ps ∈ (runPass state desired opts).2 →
      ps = diffIPPermissionInfos desired state) := by
  have hsurvive : ∀ o ∈ state, appliedSelector opts o.labels = false →
      o ∈ (runPass state desired opts).1 := by
    intro o ho hsel
    rw [runPass_state_mem]
    left
    refine ⟨ho, fun hrev => ?_⟩
    rw [computedRevoke, List.mem_filter] at hrev
    rw [hrev.2] at hsel
    simp at hsel
  refine ⟨fun p => ?_, hsurvive, fun ps hps => ?_⟩
  · constructor
    · rintro ⟨f, hf, hpf⟩
      rw [runPass_state_mem] at hf
      rcases hf with ⟨hfstate, hfnotrev⟩ | hfgrant
      · by_cases hfd : ∃ d ∈ desired, permEq f d = true
        · obtain ⟨d, hd, hfd⟩ := hfd
          exact Or.inl ⟨d, hd, permEq_trans hpf hfd⟩
        · push_neg at hfd
          refine Or.inr ⟨f, hfstate, ?_, hpf⟩
          by_contra hsel
          apply hfnotrev
          rw [computedRevoke, List.mem_filter, mem_diffIPPermissionInfos]
          refine ⟨⟨hfstate, fun q hq => by simpa using hfd q hq⟩, ?_⟩
          cases hb : appliedSelector opts f.labels with
          | true => rfl
          | false => exact absurd hb hsel
      · have hfdes := (mem_diffIPPermissionInfos.mp hfgrant).1
        exact Or.inl ⟨f, hfdes, hpf⟩
    · rintro (⟨d, hd, hpd⟩ | ⟨o, ho, hsel, hpo⟩)
      · by_cases hmatch : ∃ o ∈ state, permEq d o = true
        · obtain ⟨o, ho, hdo⟩ := hmatch
          refine ⟨o, ?_, permEq_trans hpd hdo⟩
          rw [runPass_state_mem]
          left
          refine ⟨ho, fun hrev => ?_⟩
          rw [computedRevoke, List.mem_filter, mem_diffIPPermissionInfos] at hrev
          have hfalse := hrev.1.2 d hd
          simp [permEq_symm hdo] at hfalse
        · push_neg at hmatch
          refine ⟨d, ?_, hpd⟩
          rw [runPass_state_mem]
          right
          rw [mem_diffIPPermissionInfos]
          exact ⟨hd, fun q hq => by simpa using hmatch q hq⟩
      · exact ⟨o, hsurvive o ho hsel, hpo⟩
  · simp only [runPass, fake_reconcile] at hps
    rcases List.mem_append.mp hps with hmem | hmem
    · by_cases hR :
          0 < (computedRevoke state desired (appliedSelector opts)).length
      · rw [if_pos hR] at hmem
        simp at hmem
      · rw [if_neg hR] at hmem
        simp at hmem
    · by_cases hG : 0 < (diffIPPermissionInfos desired state).length
      · rw [if_pos hG] at hmem
        simp only [List.mem_singleton] at hmem
        exact ((SGCall.grant.injEq _ _).mp hmem.symm).symm
      · rw [if_neg hG] at hmem
        simp at hmem

/-- Witness for C4: the unowned entry survives a pass that empties the
owned scope. -/
theorem reconcile_invariant_witness :
    permUnowned ∈
      (runPass [permOwned, permUnowned] []
        [withPermissionSelector ownedSelector]).1 :=
  (reconcile_invariant [permOwned, permUnowned] []
    [withPermissionSelector ownedSelector]).2.1 permUnowned
    (by decide) (by decide)

end AlbIngress
